import Mathlib

/-!
Verification development for the paper-birthdays repository.

The repository selects, for a calendar day and optional arXiv category, one
"historically significant" paper: it searches the same month/day over the
previous ten years, enriches the candidates with citation counts, ranks them,
persists a top-10 shortlist keyed by (feature date, category), and randomly
chooses one entry.  The front-end consumes a read API through a retrying HTTP
client with runtime response validation.

This file gives a shallow embedding of the parts of the system the verified
properties talk about:
  - the selection engine and historical-window calculator (the Python module
    `paper_service.py` is not part of the available sources, so these are
    modelled from the specification, as marked on each definition);
  - the front-end HTTP client retry policy (`src/lib/api/client.ts`);
  - the runtime validators and query functions
    (`src/lib/api/types.ts`, `src/lib/api/queries.ts`), over a small model of
    JSON values.
-/

/-! ## String ordering

JavaScript / Python compare strings lexicographically by code unit.  We embed
that order directly on the character lists so that it is executable by the
kernel. -/

/-- Lexicographic comparison of character lists by code point. -/
def charListLe : List Char → List Char → Bool
  | [], _ => true
  | _ :: _, [] => false
  | c :: cs, d :: ds =>
      if c.toNat < d.toNat then true
      else if d.toNat < c.toNat then false
      else charListLe cs ds

/-- Lexicographic string comparison (the order used for identifier
tie-breaks). -/
def strLe (a b : String) : Bool := charListLe a.data b.data

/-! ## Historical window calculator

Modelled from the spec: `windowDates(targetDate, yearsBack)` produces the
dates (Y-1, M, D) … (Y-yearsBack, M, D); if (M, D) = (Feb, 29) and a candidate
year is not a leap year, (Feb, 28) is substituted for that year.  The Python
implementation `get_last_10_years_dates` in `paper_service.py` is not among
the available sources; only its documentation is. -/

/-- A calendar date (year, month, day). -/
structure CalDate where
  year : Nat
  month : Nat
  day : Nat
deriving DecidableEq

/-- Gregorian leap-year test. -/
def isLeapYear (y : Nat) : Bool :=
  (y % 4 == 0 && y % 100 != 0) || y % 400 == 0

/-- Modelled from the spec: the historical window of `yearsBack` dates with the
Feb-29 → Feb-28 substitution in non-leap years. -/
def windowDates (target : CalDate) (yearsBack : Nat) : List CalDate :=
  (List.range yearsBack).map fun i =>
    let y := target.year - (i + 1)
    if target.month = 2 ∧ target.day = 29 ∧ isLeapYear y = false then
      ⟨y, 2, 28⟩
    else
      ⟨y, target.month, target.day⟩

/-! ## Selection engine

Modelled from the spec (§4.5): cache check, window, fetch, dedupe, rank,
persist shortlist of ranks 1..min(10, K), random choice from the persisted
shortlist (injected random source), with an empty shortlist yielding an
explicit "no paper available" value.  The Python implementation
(`paper_service.py`) is not among the available sources. -/

/-- A paper record; only the fields the selection pipeline consults. -/
structure Paper where
  arxivId : String
  title : String
  citationCount : Nat
deriving DecidableEq

/-- Modelled from the spec: rank order — citation count descending, external
identifier ascending on ties. -/
def rankRel (a b : Paper) : Prop :=
  b.citationCount < a.citationCount ∨
    (a.citationCount = b.citationCount ∧ strLe a.arxivId b.arxivId = true)

instance : DecidableRel rankRel := fun a b => by
  unfold rankRel; infer_instance

/-- Modelled from the spec: the rank step sorts candidates by `rankRel`. -/
def rank (papers : List Paper) : List Paper :=
  List.insertionSort rankRel papers

/-- Modelled from the spec: collapse candidates by external identifier,
keeping the first occurrence. -/
def dedupeById (papers : List Paper) : List Paper :=
  papers.foldl
    (fun acc p => if acc.any (fun q => q.arxivId == p.arxivId) then acc else acc ++ [p])
    []

/-- One ranked entry of a persisted shortlist. -/
structure FeaturedSelection where
  featureDate : CalDate
  category : Option String
  paperId : String
  rank : Nat
deriving DecidableEq

/-- The persisted record for one (feature date, category) key: the full
shortlist and the chosen entry. -/
structure SelectionEntry where
  shortlist : List FeaturedSelection
  chosen : Option FeaturedSelection
deriving DecidableEq

/-- The persistent state the engine reads and writes: the daily feature store
plus counters of provider fetches and persistence writes (observables for the
idempotence property). -/
structure EngineState where
  featureStore : List ((CalDate × Option String) × SelectionEntry)
  fetchCount : Nat
  writeCount : Nat
deriving DecidableEq

/-- The injected environment: the bibliographic provider (one call per
candidate date) and the random source used for the uniform choice. -/
structure Env where
  fetch : CalDate → Option String → List Paper
  rand : Nat → Nat

/-- Look up the persisted selection for a (feature date, category) key. -/
def lookupStore (store : List ((CalDate × Option String) × SelectionEntry))
    (d : CalDate) (c : Option String) : Option SelectionEntry :=
  (store.find? (fun kv => decide (kv.1 = (d, c)))).map (fun kv => kv.2)

/-- Modelled from the spec: the persisted shortlist — the ranked candidates,
capped at 10, with dense ranks starting at 1. -/
def mkShortlist (d : CalDate) (c : Option String) (candidates : List Paper) :
    List FeaturedSelection :=
  (List.enumFrom 1 ((rank candidates).take 10)).map
    (fun rp => ⟨d, c, rp.2.arxivId, rp.1⟩)

/-- Modelled from the spec (§4.5): `selectDailyPaper`.  Returns the chosen
entry (`none` = "no paper available") and the updated state.  On a cache hit
the stored entry is returned unchanged; otherwise the engine fetches the
window, dedupes, ranks, persists the shortlist (when nonempty) and chooses a
uniformly random index from it. -/
def selectDailyPaper (env : Env) (d : CalDate) (c : Option String)
    (st : EngineState) : Option FeaturedSelection × EngineState :=
  match lookupStore st.featureStore d c with
  | some entry => (entry.chosen, st)
  | none =>
      let dates := windowDates d 10
      let raw := dates.flatMap (fun dt => env.fetch dt c)
      let candidates := dedupeById raw
      let shortlist := mkShortlist d c candidates
      let chosen :=
        if shortlist.isEmpty then none
        else shortlist.get? (env.rand shortlist.length % shortlist.length)
      if shortlist.isEmpty then
        (chosen, { st with fetchCount := st.fetchCount + dates.length })
      else
        (chosen,
          { featureStore := ((d, c), ⟨shortlist, chosen⟩) :: st.featureStore,
            fetchCount := st.fetchCount + dates.length,
            writeCount := st.writeCount + 1 })

/-! ## HTTP client retry policy

Embedded from `src/lib/api/client.ts`.  Transformed errors are either an
`ApiError` (a response was received; carries the HTTP status) or a
`NetworkError` (no response; `timeout` distinguishes `ECONNABORTED`). -/

/-- The error taxonomy produced by `ApiClient.transformError`. -/
inductive ClientError where
  | api (status : Nat) (message : String)
  | network (timeout : Bool)
deriving DecidableEq

/-- The status allow-list shared by `ApiClient.shouldRetry` and
`isRetryableError` in `client.ts`. -/
def retryableStatuses : List Nat := [408, 429, 500, 502, 503, 504]

/-- Embeds `ApiClient.shouldRetry` (client.ts:183-194): no retry once
`attempt >= retryCount`; API errors retry only on the status allow-list;
network errors always retry. -/
def shouldRetry (retryCount : Nat) (e : ClientError) (attempt : Nat) : Bool :=
  if retryCount ≤ attempt then false
  else
    match e with
    | .api status _ => retryableStatuses.contains status
    | .network _ => true

/-- Embeds the exported `isRetryableError` (client.ts:345-352). -/
def isRetryableError (e : ClientError) : Bool :=
  match e with
  | .api status _ => retryableStatuses.contains status
  | .network _ => true

/-- Outcome of one send attempt (the response body abstracted to a string). -/
inductive AttemptResult where
  | success (data : String)
  | failure (err : ClientError)
deriving DecidableEq

/-- Embeds the retry loop of `ApiClient.request` (client.ts:204-254).
`attempt` and `lastErr` are the local variables of the loop; `fuel` is the
number of loop-guard checks still allowed (`attempt < retryCount + 1`), so the
`fuel = 0` case is the fall-through `throw lastError!` after the guard fails
(the `Option.getD` models the non-null assertion).  The second component
counts the send attempts performed. -/
def requestLoop (retries : Nat) (outcomes : Nat → AttemptResult) :
    Nat → Nat → Option ClientError → Except ClientError String × Nat
  | attempt, 0, lastErr =>
      (Except.error (lastErr.getD (ClientError.network false)), attempt)
  | attempt, fuel + 1, _lastErr =>
      match outcomes attempt with
      | .success d => (Except.ok d, attempt + 1)
      | .failure e =>
          if shouldRetry retries e (attempt + 1) then
            requestLoop retries outcomes (attempt + 1) fuel (some e)
          else
            (Except.error e, attempt + 1)

/-- Embeds `ApiClient.request`: run the loop from `attempt = 0` with the
guard bound `retries + 1`; `outcomes i` is what the `i`-th send would
return. -/
def request (retries : Nat) (outcomes : Nat → AttemptResult) :
    Except ClientError String × Nat :=
  requestLoop retries outcomes 0 (retries + 1) none

/-! ## JSON value model and runtime validators

Embedded from `src/lib/api/types.ts`.  JavaScript values reaching the
validators are modelled by `JValue`; numbers are modelled as rationals. -/

/-- A JSON-like JavaScript value. -/
inductive JValue where
  | jnull
  | jbool (b : Bool)
  | jnum (q : ℚ)
  | jstr (s : String)
  | jarr (elems : List JValue)
  | jobj (fields : List (String × JValue))

/-- Property access `v[k]`: `none` models `undefined`. -/
def getField (v : JValue) (k : String) : Option JValue :=
  match v with
  | .jobj fields => (fields.find? (fun kv => kv.1 == k)).map (fun kv => kv.2)
  | _ => none

/-- Models `typeof x === 'string'` (false on `undefined`). -/
def jIsString : Option JValue → Bool
  | some (.jstr _) => true
  | _ => false

/-- Models `typeof x === 'number'` (false on `undefined`). -/
def jIsNumber : Option JValue → Bool
  | some (.jnum _) => true
  | _ => false

/-- Models `typeof x === 'boolean'` (false on `undefined`). -/
def jIsBool : Option JValue → Bool
  | some (.jbool _) => true
  | _ => false

/-- Models `Array.isArray(x)` (false on `undefined`). -/
def jIsArray : Option JValue → Bool
  | some (.jarr _) => true
  | _ => false

/-- Embeds `validatePaper` (types.ts:168-187): the object guard followed by
per-field `typeof` / `Array.isArray` checks.  A non-object input fails the
guard; an object with a missing field fails the corresponding check, exactly
as `undefined` does in the source. -/
def validatePaper (v : JValue) : Bool :=
  match v with
  | .jobj _ =>
      jIsString (getField v "id") &&
      jIsString (getField v "arxivId") &&
      jIsString (getField v "title") &&
      jIsString (getField v "abstract") &&
      jIsArray (getField v "authors") &&
      jIsArray (getField v "categories") &&
      jIsString (getField v "primaryCategory") &&
      jIsString (getField v "submittedDate") &&
      jIsNumber (getField v "citationCount") &&
      jIsString (getField v "pdfUrl") &&
      jIsString (getField v "abstractUrl")
  | _ => false

/-- Embeds the per-entry check inside `validateHistoryResponse`
(types.ts:212-218): the entry is an object, `entry.paper` validates and
`entry.featuredDate` is a string. -/
def validateEntry (e : JValue) : Bool :=
  match e with
  | .jobj _ =>
      (match getField e "paper" with
       | some p => validatePaper p
       | none => false) &&
      jIsString (getField e "featuredDate")
  | _ => false

/-- Embeds `validateHistoryResponse` (types.ts:201-231): `papers` must be an
array of valid entries and `pagination` a truthy object with numeric `page`,
`limit`, `total` and boolean `hasNext`.  Non-object `pagination` values fail
the guard; array values pass the `typeof` guard in the source but then fail
every field check, so mapping them to `false` is equivalent. -/
def validateHistoryResponse (v : JValue) : Bool :=
  match v with
  | .jobj _ =>
      (match getField v "papers" with
       | some (.jarr entries) =>
           entries.all validateEntry &&
           (match getField v "pagination" with
            | some pg =>
                (match pg with
                 | .jobj _ =>
                     jIsNumber (getField pg "page") &&
                     jIsNumber (getField pg "limit") &&
                     jIsNumber (getField pg "total") &&
                     jIsBool (getField pg "hasNext")
                 | _ => false)
            | none => false)
       | _ => false)
  | _ => false

/-- A paper object carrying every field `validatePaper` checks, with the
`citationCount` slot supplied by the caller. -/
def paperJsonWith (cit : JValue) : JValue :=
  .jobj [("id", .jstr "1"), ("arxivId", .jstr "1706.03762"),
         ("title", .jstr "Attention Is All You Need"), ("abstract", .jstr "a"),
         ("authors", .jarr []), ("categories", .jarr []),
         ("primaryCategory", .jstr "cs.CL"),
         ("submittedDate", .jstr "2017-06-12"),
         ("citationCount", cit),
         ("pdfUrl", .jstr "p"), ("abstractUrl", .jstr "u")]

/-- A history response with exactly the shape the Read API contract states:
`papers` plus a pagination object of numeric `page`, `limit`, `total`. -/
def contractHistoryResponse : JValue :=
  .jobj [("papers", .jarr []),
         ("pagination",
          .jobj [("page", .jnum 1), ("limit", .jnum 20), ("total", .jnum 0)])]

/-- A history response whose pagination carries `page`, `limit`, `total` and
optionally a boolean `hasNext`. -/
def mkHistoryResponse (entries : List JValue) (page limit total : ℚ)
    (hasNext : Option Bool) : JValue :=
  .jobj [("papers", .jarr entries),
         ("pagination",
          .jobj ([("page", .jnum page), ("limit", .jnum limit),
                  ("total", .jnum total)] ++
                 (match hasNext with
                  | some b => [("hasNext", .jbool b)]
                  | none => [])))]

/-! ## History query parameter validation

Embedded from `src/lib/api/queries.ts` and the constants in
`src/lib/api/types.ts`.  JavaScript numbers are modelled as rationals;
`Number.isInteger` is the denominator-one test. -/

/-- Embeds `DEFAULT_PAGE_SIZE` (types.ts:162). -/
def DEFAULT_PAGE_SIZE : Nat := 20

/-- Embeds `MAX_PAGE_SIZE` (types.ts:163). -/
def MAX_PAGE_SIZE : Nat := 100

/-- Models `Number.isInteger`. -/
def numIsInteger (q : ℚ) : Bool := q.den == 1

/-- The caller-supplied parameters of `historyQuery` (each optional). -/
structure HistoryQueryParams where
  page : Option ℚ
  limit : Option ℚ
  category : Option String
deriving DecidableEq

/-- A `ValidationError` as thrown by `validateHistoryParams`: message and the
offending field. -/
inductive VError where
  | validation (message : String) (field : String)
deriving DecidableEq

/-- Embeds the `page` check of `validateHistoryParams` (queries.ts:31-40):
throw unless `Number.isInteger(page) && page >= 1`. -/
def checkPage : Option ℚ → Except VError (Option ℚ)
  | none => .ok none
  | some p =>
      if numIsInteger p && decide (1 ≤ p) then .ok (some p)
      else .error (.validation "Page must be a positive integer" "page")

/-- Embeds the `limit` check of `validateHistoryParams` (queries.ts:42-51):
throw unless `Number.isInteger(limit) && 1 <= limit <= MAX_PAGE_SIZE`. -/
def checkLimit : Option ℚ → Except VError (Option ℚ)
  | none => .ok none
  | some l =>
      if numIsInteger l && decide (1 ≤ l) && decide (l ≤ (MAX_PAGE_SIZE : ℚ)) then
        .ok (some l)
      else .error (.validation "Limit must be between 1 and 100" "limit")

/-- Embeds the `category` check of `validateHistoryParams`
(queries.ts:53-62): throw when the trimmed category is empty, otherwise keep
the trimmed value. -/
def checkCategory : Option String → Except VError (Option String)
  | none => .ok none
  | some s =>
      if s.trim.length == 0 then
        .error (.validation "Category must be a non-empty string" "category")
      else .ok (some s.trim)

/-- Embeds `validateHistoryParams` (queries.ts:26-65): an absent params
object validates to the empty record; otherwise the three field checks run in
source order, the first failure propagating. -/
def validateHistoryParams (po : Option HistoryQueryParams) :
    Except VError HistoryQueryParams :=
  match po with
  | none => .ok ⟨none, none, none⟩
  | some ps =>
      match checkPage ps.page with
      | .error e => .error e
      | .ok pg =>
          match checkLimit ps.limit with
          | .error e => .error e
          | .ok lm =>
              match checkCategory ps.category with
              | .error e => .error e
              | .ok ct => .ok ⟨pg, lm, ct⟩

/-- The query parameters `historyQuery` actually sends. -/
structure SentQueryParams where
  page : ℚ
  limit : ℚ
  category : Option String
deriving DecidableEq

/-- Embeds the parameter assembly of `historyQuery` (queries.ts:159-166):
validate, then default `page` to 1 and `limit` to `DEFAULT_PAGE_SIZE`, and
include the (trimmed, nonempty) category when present. -/
def historyQueryParams (po : Option HistoryQueryParams) :
    Except VError SentQueryParams :=
  (validateHistoryParams po).map
    (fun v => ⟨v.page.getD 1, v.limit.getD (DEFAULT_PAGE_SIZE : ℚ), v.category⟩)

/-- Embeds `historyQuery` (queries.ts:158-178): parameter validation happens
before the request; only when it succeeds is the server consulted, and the
response body is accepted exactly when `validateHistoryResponse` holds.
`server` stands for the HTTP round-trip, mapping the sent parameters to the
response body. -/
def historyQuery (server : SentQueryParams → JValue)
    (po : Option HistoryQueryParams) : Except VError JValue :=
  match historyQueryParams po with
  | .error e => .error e
  | .ok qp =>
      let respData := server qp
      if validateHistoryResponse respData then .ok respData
      else .error (.validation "Invalid history response format" "")

/-! ## Concrete sample data for witnesses -/

/-- A sample feature date. -/
def sampleDate : CalDate := ⟨2024, 6, 12⟩

/-- A sample persisted selection row. -/
def sampleSelection : FeaturedSelection := ⟨sampleDate, none, "1706.03762", 1⟩

/-- A sample stored entry: one-element shortlist with that row chosen. -/
def sampleEntry : SelectionEntry := ⟨[sampleSelection], some sampleSelection⟩

/-- A sample state whose store already holds `sampleEntry` for
(`sampleDate`, cross-category). -/
def sampleState : EngineState := ⟨[((sampleDate, none), sampleEntry)], 7, 3⟩

/-- An environment whose provider returns no papers and whose random source
is constantly zero. -/
def emptyEnv : Env := ⟨fun _ _ => [], fun _ => 0⟩

/-! ## Order lemmas for the identifier tie-break -/

theorem charListLe_total (xs ys : List Char) :
    charListLe xs ys = true ∨ charListLe ys xs = true := by
  induction xs generalizing ys with
  | nil => left; rfl
  | cons c cs ih =>
      cases ys with
      | nil => right; rfl
      | cons d ds =>
          rcases Nat.lt_trichotomy c.toNat d.toNat with h | h | h
          · left; simp [charListLe, h]
          · rcases ih ds with h2 | h2
            · left; simp [charListLe, h, h2]
            · right; simp [charListLe, h.symm, h2]
          · right; simp [charListLe, h]

theorem charListLe_trans {xs ys zs : List Char}
    (h1 : charListLe xs ys = true) (h2 : charListLe ys zs = true) :
    charListLe xs zs = true := by
  induction xs generalizing ys zs with
  | nil => rfl
  | cons c cs ih =>
      cases ys with
      | nil => simp [charListLe] at h1
      | cons d ds =>
          cases zs with
          | nil => simp [charListLe] at h2
          | cons e es =>
              simp only [charListLe] at h1 h2 ⊢
              rcases Nat.lt_trichotomy c.toNat d.toNat with hcd | hcd | hcd
              · rcases Nat.lt_trichotomy d.toNat e.toNat with hde | hde | hde
                · rw [if_pos (by omega)]
                · rw [if_pos (by omega)]
                · rw [if_neg (by omega), if_pos (by omega)] at h2
                  simp at h2
              · rw [if_neg (by omega), if_neg (by omega)] at h1
                rcases Nat.lt_trichotomy d.toNat e.toNat with hde | hde | hde
                · rw [if_pos (by omega)]
                · rw [if_neg (by omega), if_neg (by omega)] at h2
                  rw [if_neg (by omega), if_neg (by omega)]
                  exact ih h1 h2
                · rw [if_neg (by omega), if_pos (by omega)] at h2
                  simp at h2
              · rw [if_neg (by omega), if_pos (by omega)] at h1
                simp at h1

theorem charListLe_antisymm {xs ys : List Char}
    (h1 : charListLe xs ys = true) (h2 : charListLe ys xs = true) : xs = ys := by
  induction xs generalizing ys with
  | nil =>
      cases ys with
      | nil => rfl
      | cons d ds => simp [charListLe] at h2
  | cons c cs ih =>
      cases ys with
      | nil => simp [charListLe] at h1
      | cons d ds =>
          simp only [charListLe] at h1 h2
          rcases Nat.lt_trichotomy c.toNat d.toNat with hcd | hcd | hcd
          · rw [if_neg (by omega), if_pos (by omega)] at h2
            simp at h2
          · have hval : c.val = d.val := by
              apply UInt32.ext
              simpa [Char.toNat] using hcd
            have hc : c = d := Char.ext hval
            rw [if_neg (by omega), if_neg (by omega)] at h1
            rw [if_neg (by omega), if_neg (by omega)] at h2
            rw [hc, ih h1 h2]
          · rw [if_neg (by omega), if_pos (by omega)] at h1
            simp at h1

theorem strLe_total (a b : String) : strLe a b = true ∨ strLe b a = true :=
  charListLe_total a.data b.data

theorem strLe_trans {a b c : String}
    (h1 : strLe a b = true) (h2 : strLe b c = true) : strLe a c = true :=
  charListLe_trans h1 h2

theorem strLe_antisymm {a b : String}
    (h1 : strLe a b = true) (h2 : strLe b a = true) : a = b :=
  String.ext (charListLe_antisymm h1 h2)

instance : IsTotal Paper rankRel := by
  constructor
  intro a b
  unfold rankRel
  rcases Nat.lt_trichotomy a.citationCount b.citationCount with h | h | h
  · right; left; exact h
  · rcases strLe_total a.arxivId b.arxivId with hs | hs
    · left; right; exact ⟨h, hs⟩
    · right; right; exact ⟨h.symm, hs⟩
  · left; left; exact h

instance : IsTrans Paper rankRel := by
  constructor
  intro a b c hab hbc
  unfold rankRel at hab hbc ⊢
  rcases hab with h1 | ⟨e1, s1⟩
  · rcases hbc with h2 | ⟨e2, s2⟩
    · left; exact Nat.lt_trans h2 h1
    · left; omega
  · rcases hbc with h2 | ⟨e2, s2⟩
    · left; omega
    · right; exact ⟨e1.trans e2, strLe_trans s1 s2⟩

/-- Sorted lists that are permutations of each other agree, provided the
order is antisymmetric on the elements involved. -/
theorem sorted_perm_eq_of_antisymmOn {α : Type} {r : α → α → Prop} :
    ∀ {l1 l2 : List α}, l1.Perm l2 → l1.Sorted r → l2.Sorted r →
      (∀ a ∈ l1, ∀ b ∈ l1, r a b → r b a → a = b) → l1 = l2 := by
  intro l1
  induction l1 with
  | nil =>
      intro l2 hp _ _ _
      exact (hp.symm.eq_nil).symm
  | cons a t ih =>
      intro l2 hp hs1 hs2 hanti
      cases l2 with
      | nil => exact absurd hp.eq_nil (by simp)
      | cons b t2 =>
          have hab : a = b := by
            by_contra hne
            have ha2 : a ∈ b :: t2 := hp.mem_iff.mp (List.mem_cons_self a t)
            have hb1 : b ∈ a :: t := hp.mem_iff.mpr (List.mem_cons_self b t2)
            have hat2 : a ∈ t2 := by
              rcases List.mem_cons.mp ha2 with h | h
              · exact absurd h hne
              · exact h
            have hbt : b ∈ t := by
              rcases List.mem_cons.mp hb1 with h | h
              · exact absurd h.symm hne
              · exact h
            have hr1 : r a b := (List.sorted_cons.mp hs1).1 b hbt
            have hr2 : r b a := (List.sorted_cons.mp hs2).1 a hat2
            exact hne (hanti a (List.mem_cons_self a t) b hb1 hr1 hr2)
          subst hab
          have hp2 : t.Perm t2 := hp.cons_inv
          have ht : t = t2 :=
            ih hp2 (List.sorted_cons.mp hs1).2 (List.sorted_cons.mp hs2).2
              (fun x hx y hy => hanti x (List.mem_cons_of_mem a hx)
                y (List.mem_cons_of_mem a hy))
          rw [ht]

/-- C2: the rank step orders candidates by citation count descending with
ties broken by external identifier ascending, and the ordering is
deterministic — for a candidate set (identifiers pairwise distinct, as
guaranteed by the dedupe step), every permutation of the input ranks to the
same list. -/
theorem rank_perm_invariant (l1 l2 : List Paper) (hp : l1.Perm l2)
    (hnd : (l1.map Paper.arxivId).Nodup) :
    rank l1 = rank l2 ∧ (rank l1).Sorted rankRel := by
  have hs1 : (rank l1).Sorted rankRel := List.sorted_insertionSort rankRel l1
  have hs2 : (rank l2).Sorted rankRel := List.sorted_insertionSort rankRel l2
  have hperm : (rank l1).Perm (rank l2) :=
    ((List.perm_insertionSort rankRel l1).trans hp).trans
      (List.perm_insertionSort rankRel l2).symm
  refine ⟨?_, hs1⟩
  apply sorted_perm_eq_of_antisymmOn hperm hs1 hs2
  intro a ha b hb hr1 hr2
  have ha1 : a ∈ l1 := (List.perm_insertionSort rankRel l1).mem_iff.mp ha
  have hb1 : b ∈ l1 := (List.perm_insertionSort rankRel l1).mem_iff.mp hb
  rcases hr1 with h1 | ⟨e1, s1⟩
  · rcases hr2 with h2 | ⟨e2, s2⟩
    · omega
    · omega
  · rcases hr2 with h2 | ⟨e2, s2⟩
    · omega
    · have hid : a.arxivId = b.arxivId := strLe_antisymm s1 s2
      exact List.inj_on_of_nodup_map hnd ha1 hb1 hid

/-- Witness for C2 at a concrete shuffled candidate set with a citation
tie. -/
theorem rank_perm_invariant_witness :
    rank [⟨"2001.00002", "B", 40⟩, ⟨"2001.00003", "C", 90⟩,
          ⟨"2001.00001", "A", 40⟩] =
      rank [⟨"2001.00001", "A", 40⟩, ⟨"2001.00002", "B", 40⟩,
            ⟨"2001.00003", "C", 90⟩] ∧
    (rank [⟨"2001.00002", "B", 40⟩, ⟨"2001.00003", "C", 90⟩,
           ⟨"2001.00001", "A", 40⟩]).Sorted rankRel :=
  rank_perm_invariant
    [⟨"2001.00002", "B", 40⟩, ⟨"2001.00003", "C", 90⟩, ⟨"2001.00001", "A", 40⟩]
    [⟨"2001.00001", "A", 40⟩, ⟨"2001.00002", "B", 40⟩, ⟨"2001.00003", "C", 90⟩]
    (by decide) (by decide)

/-- C3: for every candidate set of size K the persisted shortlist has
exactly min(K, 10) entries whose ranks are the dense sequence
1..min(K, 10). -/
theorem mkShortlist_cap_and_dense_ranks :
    ∀ (d : CalDate) (c : Option String) (candidates : List Paper),
      (mkShortlist d c candidates).length = min candidates.length 10 ∧
      (mkShortlist d c candidates).map FeaturedSelection.rank =
        List.range' 1 (min candidates.length 10) := by
  intro d c candidates
  have hrank : (rank candidates).length = candidates.length :=
    (List.perm_insertionSort rankRel candidates).length_eq
  have htake : ((rank candidates).take 10).length = min candidates.length 10 := by
    rw [List.length_take, hrank, Nat.min_comm]
  constructor
  · simp only [mkShortlist, List.length_map, List.enumFrom_length]
    exact htake
  · have hmap : (mkShortlist d c candidates).map FeaturedSelection.rank =
        (List.enumFrom 1 ((rank candidates).take 10)).map Prod.fst := by
      simp only [mkShortlist, List.map_map]
      rfl
    rw [hmap, List.enumFrom_map_fst, htake]

/-- C4: `windowDates` always returns exactly `yearsBack` dates, and for the
target Feb 29 2024 with a 10-year window every leap candidate year
contributes Feb 29 and every non-leap candidate year contributes Feb 28. -/
theorem windowDates_exact_count_leap_day :
    (∀ (t : CalDate) (n : Nat), (windowDates t n).length = n) ∧
    windowDates ⟨2024, 2, 29⟩ 10 =
      [⟨2023, 2, 28⟩, ⟨2022, 2, 28⟩, ⟨2021, 2, 28⟩, ⟨2020, 2, 29⟩,
       ⟨2019, 2, 28⟩, ⟨2018, 2, 28⟩, ⟨2017, 2, 28⟩, ⟨2016, 2, 29⟩,
       ⟨2015, 2, 28⟩, ⟨2014, 2, 28⟩] := by
  constructor
  · intro t n
    simp [windowDates]
  · decide

/-- C1: when a selection already exists for (featureDate, category) —
including the null cross-category — `selectDailyPaper` returns the
previously chosen entry and leaves the state untouched, so a repeated call
yields the identical chosen paper and shortlist and the fetch and write
counters do not move. -/
theorem selectDailyPaper_cached_idempotent (env : Env) (d : CalDate)
    (c : Option String) (st : EngineState) (entry : SelectionEntry)
    (h : lookupStore st.featureStore d c = some entry) :
    selectDailyPaper env d c st = (entry.chosen, st) := by
  unfold selectDailyPaper
  rw [h]

/-- Witness for C1 at a concrete state that already stores a selection. -/
theorem selectDailyPaper_cached_idempotent_witness :
    selectDailyPaper emptyEnv sampleDate none sampleState =
      (some sampleSelection, sampleState) :=
  selectDailyPaper_cached_idempotent emptyEnv sampleDate none sampleState
    sampleEntry rfl

/-- C6: with no cached selection and zero candidates across the whole
window, `selectDailyPaper` yields the explicit "no paper available" value
(`none`) — a normal result of the total function, not an error and not an
arbitrary paper. -/
theorem selectDailyPaper_empty_no_paper (env : Env) (d : CalDate)
    (c : Option String) (st : EngineState)
    (hmiss : lookupStore st.featureStore d c = none)
    (hempty : ∀ dt ∈ windowDates d 10, env.fetch dt c = []) :
    (selectDailyPaper env d c st).1 = none := by
  unfold selectDailyPaper
  rw [hmiss]
  have hraw : (windowDates d 10).flatMap (fun dt => env.fetch dt c) = [] := by
    rw [List.flatMap_eq_nil_iff]
    exact hempty
  simp [hraw, dedupeById, mkShortlist, rank, List.insertionSort]

/-- Witness for C6: empty provider, empty store. -/
theorem selectDailyPaper_empty_no_paper_witness :
    (selectDailyPaper emptyEnv ⟨2024, 1, 15⟩ none ⟨[], 0, 0⟩).1 = none :=
  selectDailyPaper_empty_no_paper emptyEnv ⟨2024, 1, 15⟩ none ⟨[], 0, 0⟩
    rfl (fun _ _ => rfl)

/-- Counterexample to C5: with retry budget remaining (attempt 1 of 3), an
HTTP 501 response — a 5xx status — is not retried, while an HTTP 408
response — a 4xx status other than 429 — is retried. -/
theorem retry_policy_counterexample :
    shouldRetry 3 (ClientError.api 501 "Not Implemented") 1 = false ∧
    isRetryableError (ClientError.api 501 "Not Implemented") = false ∧
    shouldRetry 3 (ClientError.api 408 "Request Timeout") 1 = true ∧
    500 ≤ 501 ∧ 501 ≤ 599 ∧ 1 < 3 := by
  decide

/-- C5 amended: a failed attempt is retried exactly when attempts remain and
the failure is a network/timeout error or carries one of the statuses
408, 429, 500, 502, 503, 504; every other status — all remaining 4xx and
also 501 and 505-style 5xx — propagates immediately. -/
theorem retry_policy_characterization :
    (∀ (retryCount attempt : Nat) (e : ClientError),
        shouldRetry retryCount e attempt = true ↔
          (attempt < retryCount ∧ isRetryableError e = true)) ∧
    (∀ (e : ClientError),
        isRetryableError e = true ↔
          ((∃ t, e = ClientError.network t) ∨
            (∃ s m, e = ClientError.api s m ∧ s ∈ retryableStatuses))) := by
  constructor
  · intro retryCount attempt e
    unfold shouldRetry
    by_cases h : retryCount ≤ attempt
    · rw [if_pos h]
      constructor
      · intro hh
        exact absurd hh (by simp)
      · rintro ⟨h1, _⟩
        omega
    · rw [if_neg h]
      have hlt : attempt < retryCount := Nat.lt_of_not_le h
      cases e with
      | api s m => simp [isRetryableError, hlt]
      | network t => simp [isRetryableError, hlt]
  · intro e
    cases e with
    | api s m =>
        simp only [isRetryableError]
        constructor
        · intro hh
          right
          exact ⟨s, m, rfl, by simpa using hh⟩
        · rintro (⟨t, ht⟩ | ⟨s2, m2, he, hs2⟩)
          · exact absurd ht (by simp)
          · cases he
            simpa using hs2
    | network t =>
        exact ⟨fun _ => Or.inl ⟨t, rfl⟩, fun _ => rfl⟩

/-- The attempt count of the retry loop never exceeds the starting attempt
index plus the remaining guard budget. -/
theorem requestLoop_attempts_le (retries : Nat) (outcomes : Nat → AttemptResult) :
    ∀ (fuel attempt : Nat) (lastErr : Option ClientError),
      (requestLoop retries outcomes attempt fuel lastErr).2 ≤ attempt + fuel := by
  intro fuel
  induction fuel with
  | zero =>
      intro attempt lastErr
      simp [requestLoop]
  | succ n ih =>
      intro attempt lastErr
      simp only [requestLoop]
      cases houtcome : outcomes attempt with
      | success d => simp
      | failure e =>
          simp only
          by_cases hr : shouldRetry retries e (attempt + 1) = true
          · rw [if_pos hr]
            have := ih (attempt + 1) (some e)
            omega
          · rw [if_neg hr]
            simp

/-- When every attempt fails, the retry loop ends in the error of the last
attempt it made, provided its invariants hold: positive fuel when no error
is recorded yet, and a recorded error matching the preceding attempt. -/
theorem requestLoop_all_fail (retries : Nat) (outcomes : Nat → AttemptResult)
    (hfail : ∀ i, ∃ e, outcomes i = AttemptResult.failure e) :
    ∀ (fuel attempt : Nat) (lastErr : Option ClientError),
      (lastErr = none → 0 < fuel) →
      (∀ e, lastErr = some e →
          outcomes (attempt - 1) = AttemptResult.failure e ∧ 1 ≤ attempt) →
      ∃ e, (requestLoop retries outcomes attempt fuel lastErr).1 =
              Except.error e ∧
            outcomes ((requestLoop retries outcomes attempt fuel lastErr).2 - 1) =
              AttemptResult.failure e ∧
            1 ≤ (requestLoop retries outcomes attempt fuel lastErr).2 := by
  intro fuel
  induction fuel with
  | zero =>
      intro attempt lastErr hpos hinv
      cases lastErr with
      | none => exact absurd (hpos rfl) (by simp)
      | some e =>
          obtain ⟨h1, h2⟩ := hinv e rfl
          exact ⟨e, rfl, h1, h2⟩
  | succ n ih =>
      intro attempt lastErr hpos hinv
      obtain ⟨e, he⟩ := hfail attempt
      simp only [requestLoop, he]
      by_cases hr : shouldRetry retries e (attempt + 1) = true
      · rw [if_pos hr]
        apply ih (attempt + 1) (some e)
        · intro h
          cases h
        · intro e2 h2
          cases h2
          constructor
          · simpa using he
          · omega
      · rw [if_neg hr]
        exact ⟨e, rfl, by simpa using he, by omega⟩

/-- C9: through `ApiClient.request`, the number of send attempts is bounded
by 1 plus the configured retry count, and when every attempt fails the call
terminates with the error of the last attempt actually made. -/
theorem request_attempts_bounded_throws_last (retries : Nat)
    (outcomes : Nat → AttemptResult) :
    (request retries outcomes).2 ≤ retries + 1 ∧
    ((∀ i, ∃ e, outcomes i = AttemptResult.failure e) →
      ∃ e, (request retries outcomes).1 = Except.error e ∧
            outcomes ((request retries outcomes).2 - 1) =
              AttemptResult.failure e) := by
  constructor
  · have := requestLoop_attempts_le retries outcomes (retries + 1) 0 none
    simpa [request] using this
  · intro hfail
    obtain ⟨e, h1, h2, _⟩ :=
      requestLoop_all_fail retries outcomes hfail (retries + 1) 0 none
        (fun _ => Nat.succ_pos retries) (fun e2 h => by cases h)
    exact ⟨e, h1, h2⟩

/-- Witness for C9: two retries, every attempt a network timeout. -/
theorem request_attempts_bounded_throws_last_witness :
    (request 2 (fun _ => AttemptResult.failure (ClientError.network true))).2 ≤ 3 ∧
    ∃ e, (request 2 (fun _ => AttemptResult.failure (ClientError.network true))).1 =
            Except.error e ∧
          AttemptResult.failure (ClientError.network true) =
            AttemptResult.failure e :=
  ⟨(request_attempts_bounded_throws_last 2
      (fun _ => AttemptResult.failure (ClientError.network true))).1,
   (request_attempts_bounded_throws_last 2
      (fun _ => AttemptResult.failure (ClientError.network true))).2
     (fun _ => ⟨ClientError.network true, rfl⟩)⟩

/-- Counterexample to C7: a paper record with citationCount = -1 — every
other field well-typed — is accepted by `validatePaper`. -/
theorem validatePaper_accepts_negative_citation :
    validatePaper (paperJsonWith (JValue.jnum (-1))) = true ∧ (-1 : ℚ) < 0 := by
  constructor
  · rfl
  · norm_num

/-- C7 amended: `validatePaper` requires `citationCount` to be a number but
places no bound on its value — records with any numeric citation count,
negative ones included, are accepted, while a non-numeric `citationCount`
is rejected. -/
theorem validatePaper_citation_sign_unchecked :
    (∀ q : ℚ, validatePaper (paperJsonWith (JValue.jnum q)) = true) ∧
    validatePaper (paperJsonWith (JValue.jstr "5")) = false :=
  ⟨fun _ => rfl, rfl⟩

/-- Counterexample to C8: the response whose body is exactly the documented
contract shape — `papers` plus a pagination object of numeric `page`,
`limit`, `total` — is rejected by `validateHistoryResponse`, and
`historyQuery` turns it into an invalid-format `ValidationError` instead of
returning it. -/
theorem historyQuery_rejects_contract_shape :
    validateHistoryResponse contractHistoryResponse = false ∧
    historyQuery (fun _ => contractHistoryResponse) none =
      Except.error (VError.validation "Invalid history response format" "") :=
  ⟨rfl, rfl⟩

/-- C8 amended: `historyQuery` accepts a history response only when its
pagination additionally carries a boolean `hasNext`; with `hasNext` present
(and every entry carrying a validating paper and a string featuredDate) the
response is accepted, and the same response without `hasNext` is
rejected. -/
theorem validateHistoryResponse_requires_hasNext :
    ∀ (entries : List JValue) (page limit total : ℚ) (b : Bool),
      (∀ e ∈ entries, validateEntry e = true) →
      validateHistoryResponse
          (mkHistoryResponse entries page limit total (some b)) = true ∧
      validateHistoryResponse
          (mkHistoryResponse entries page limit total none) = false := by
  intro entries page limit total b hent
  constructor
  · have h1 : validateHistoryResponse
        (mkHistoryResponse entries page limit total (some b)) =
          (entries.all validateEntry && true) := rfl
    rw [h1, Bool.and_true]
    exact List.all_eq_true.mpr hent
  · have h2 : validateHistoryResponse
        (mkHistoryResponse entries page limit total none) =
          (entries.all validateEntry && false) := rfl
    rw [h2, Bool.and_false]

/-- Witness for the amended C8 at a concrete one-entry response. -/
theorem validateHistoryResponse_requires_hasNext_witness :
    validateHistoryResponse
        (mkHistoryResponse
          [JValue.jobj [("paper", paperJsonWith (JValue.jnum 45678)),
                        ("featuredDate", JValue.jstr "2024-06-12")]]
          1 20 1 (some true)) = true ∧
    validateHistoryResponse
        (mkHistoryResponse
          [JValue.jobj [("paper", paperJsonWith (JValue.jnum 45678)),
                        ("featuredDate", JValue.jstr "2024-06-12")]]
          1 20 1 none) = false :=
  validateHistoryResponse_requires_hasNext
    [JValue.jobj [("paper", paperJsonWith (JValue.jnum 45678)),
                  ("featuredDate", JValue.jstr "2024-06-12")]]
    1 20 1 true (by intro e he; simp at he; rw [he]; rfl)

/-- If any of the three field checks fails, `validateHistoryParams` throws. -/
theorem validateHistoryParams_error_of_stage (ps : HistoryQueryParams)
    (h : (∃ e, checkPage ps.page = Except.error e) ∨
         (∃ e, checkLimit ps.limit = Except.error e) ∨
         (∃ e, checkCategory ps.category = Except.error e)) :
    ∃ e, validateHistoryParams (some ps) = Except.error e := by
  have hdef : validateHistoryParams (some ps) =
      (match checkPage ps.page with
       | .error e => .error e
       | .ok pg =>
           match checkLimit ps.limit with
           | .error e => .error e
           | .ok lm =>
               match checkCategory ps.category with
               | .error e => .error e
               | .ok ct => .ok ⟨pg, lm, ct⟩) := rfl
  rw [hdef]
  cases hpg : checkPage ps.page with
  | error e => exact ⟨e, rfl⟩
  | ok pg =>
      cases hlm : checkLimit ps.limit with
      | error e => exact ⟨e, rfl⟩
      | ok lm =>
          cases hct : checkCategory ps.category with
          | error e => exact ⟨e, rfl⟩
          | ok ct =>
              rcases h with ⟨e, h⟩ | ⟨e, h⟩ | ⟨e, h⟩
              · rw [h] at hpg; cases hpg
              · rw [h] at hlm; cases hlm
              · rw [h] at hct; cases hct

/-- A parameter-validation failure propagates out of `historyQuery` without
the server being consulted. -/
theorem historyQuery_error_of_invalid (server : SentQueryParams → JValue)
    (po : Option HistoryQueryParams) (e : VError)
    (h : validateHistoryParams po = Except.error e) :
    historyQuery server po = Except.error e := by
  unfold historyQuery historyQueryParams
  rw [h]
  rfl

/-- C10: `historyQuery` throws a ValidationError before any HTTP request —
the result does not depend on the server — whenever the supplied page is
not an integer at least 1, the supplied limit is not an integer in [1, 100],
or the supplied category trims to the empty string; and when page and limit
are omitted the sent parameters carry the defaults page = 1 and
limit = 20. -/
theorem historyQuery_validates_params_and_defaults :
    (∀ (server : SentQueryParams → JValue) (ps : HistoryQueryParams),
        ((∃ p, ps.page = some p ∧ (numIsInteger p = false ∨ p < 1)) ∨
         (∃ l, ps.limit = some l ∧
            (numIsInteger l = false ∨ l < 1 ∨ (MAX_PAGE_SIZE : ℚ) < l)) ∨
         (∃ s, ps.category = some s ∧ s.trim.length = 0)) →
        ∃ msg fld, historyQuery server (some ps) =
          Except.error (VError.validation msg fld)) ∧
    (∀ (cat : Option String) (qp : SentQueryParams),
        historyQueryParams (some ⟨none, none, cat⟩) = Except.ok qp →
        qp.page = 1 ∧ qp.limit = 20) := by
  constructor
  · intro server ps hbad
    have hstage : (∃ e, checkPage ps.page = Except.error e) ∨
        (∃ e, checkLimit ps.limit = Except.error e) ∨
        (∃ e, checkCategory ps.category = Except.error e) := by
      rcases hbad with ⟨p, hp, hinv⟩ | ⟨l, hl, hinv⟩ | ⟨s, hs, hinv⟩
      · left
        refine ⟨VError.validation "Page must be a positive integer" "page", ?_⟩
        rw [hp]
        rcases hinv with hni | hlt
        · simp [checkPage, hni]
        · have hn : ¬ (1 : ℚ) ≤ p := not_le.mpr hlt
          simp [checkPage, hn]
      · right; left
        refine ⟨VError.validation "Limit must be between 1 and 100" "limit", ?_⟩
        rw [hl]
        rcases hinv with hni | hlt | hgt
        · simp [checkLimit, hni]
        · have hn : ¬ (1 : ℚ) ≤ l := not_le.mpr hlt
          simp [checkLimit, hn]
        · have hn : ¬ l ≤ (MAX_PAGE_SIZE : ℚ) := not_le.mpr hgt
          simp [checkLimit, hn]
      · right; right
        refine ⟨VError.validation "Category must be a non-empty string" "category", ?_⟩
        rw [hs]
        simp [checkCategory, hinv]
    obtain ⟨e, he⟩ := validateHistoryParams_error_of_stage ps hstage
    cases e with
    | validation m f =>
        exact ⟨m, f, historyQuery_error_of_invalid server (some ps) _ he⟩
  · intro cat qp hok
    have hdef : historyQueryParams (some ⟨none, none, cat⟩) =
        Except.map
          (fun v : HistoryQueryParams =>
            (⟨v.page.getD 1, v.limit.getD (DEFAULT_PAGE_SIZE : ℚ),
              v.category⟩ : SentQueryParams))
          (match checkCategory cat with
           | .error e => .error e
           | .ok ct => .ok (⟨none, none, ct⟩ : HistoryQueryParams)) := rfl
    rw [hdef] at hok
    cases hct : checkCategory cat with
    | error e =>
        rw [hct] at hok
        cases hok
    | ok ct =>
        rw [hct] at hok
        have hqp : qp =
            (⟨1, (DEFAULT_PAGE_SIZE : ℚ), ct⟩ : SentQueryParams) := by
          cases hok
          rfl
        rw [hqp]
        constructor
        · rfl
        · show ((DEFAULT_PAGE_SIZE : Nat) : ℚ) = 20
          norm_num [DEFAULT_PAGE_SIZE]

/-- Witness for C10: page 0 is rejected regardless of the server, and an
omitted page/limit produce the defaults 1 and 20. -/
theorem historyQuery_validates_params_and_defaults_witness :
    (∃ msg fld,
        historyQuery (fun _ => JValue.jnull)
            (some ⟨some (0 : ℚ), none, none⟩) =
          Except.error (VError.validation msg fld)) ∧
    ((⟨1, 20, none⟩ : SentQueryParams).page = 1 ∧
      (⟨1, 20, none⟩ : SentQueryParams).limit = 20) :=
  ⟨historyQuery_validates_params_and_defaults.1 (fun _ => JValue.jnull)
      ⟨some (0 : ℚ), none, none⟩
      (Or.inl ⟨(0 : ℚ), rfl, Or.inr (by decide)⟩),
   historyQuery_validates_params_and_defaults.2 none ⟨1, 20, none⟩ rfl⟩
